import Mathlib

/-
Verification of the alx-backend-python middleware layer.

The Python sources embedded here are the decorator files of
python-decorators-0x01 (with_db_connection, transactional,
retry_on_failure, cache_query) and the generator file
python-generators-0x00/1-batch_processing.py.  Decorated calls are
modelled as pure functions from the wrapped operation's outcomes to a
pair of (final outcome, list of observable events); exceptions are
Except values, and side effects on the connection (acquire, close,
commit, rollback, the retry sleep, batch fetches) are explicit events.
-/

namespace AlxMw

/-- Python values that appear as bind parameters and cache-key parts:
None, ints, strings, booleans and tuples (modelled as nested pairs). -/
inductive PVal where
  | vnone
  | vint (n : Int)
  | vstr (s : String)
  | vbool (b : Bool)
  | vpair (a b : PVal)
deriving DecidableEq, Repr

/-- Python truthiness of a `PVal`: None, 0, the empty string and False
are falsy; tuples with elements are truthy. -/
def truthyPVal : PVal → Bool
  | .vnone => false
  | .vint n => !(n = 0 : Bool)
  | .vstr s => !(s = "" : Bool)
  | .vbool b => b
  | .vpair _ _ => true

/-- Exception kinds the decorators distinguish: `sqlite` stands for
sqlite3.Error subclasses; the others are non-database exceptions
(TypeError raised by transactional's isinstance check, ValueError,
ZeroDivisionError as in the demo code). -/
inductive PyErr where
  | sqlite (msg : String)
  | typeError
  | valueError (msg : String)
  | zeroDiv
deriving DecidableEq, Repr

/-- Observable events of one external call.  Connections are numbered;
`attempt i` is the retry loop's log line for try number `i` (0-based),
`invoke c i` marks the wrapped operation running attempt `i` on
connection `c`, `sleep` is the inter-attempt delay, `fetch` is one
cursor.fetchmany call and `yieldBatch n` a batch of `n` rows handed to
the consumer. -/
inductive Ev where
  | acquire (c : Nat)
  | close (c : Nat)
  | commit (c : Nat)
  | rollback (c : Nat)
  | attempt (i : Nat)
  | invoke (c i : Nat)
  | sleep
  | fetch
  | yieldBatch (n : Nat)
deriving DecidableEq, Repr

def acquireCount : List Ev → Nat
  | [] => 0
  | Ev.acquire _ :: tr => acquireCount tr + 1
  | _ :: tr => acquireCount tr

def closeCount : List Ev → Nat
  | [] => 0
  | Ev.close _ :: tr => closeCount tr + 1
  | _ :: tr => closeCount tr

def commitCount : List Ev → Nat
  | [] => 0
  | Ev.commit _ :: tr => commitCount tr + 1
  | _ :: tr => commitCount tr

def rollbackCount : List Ev → Nat
  | [] => 0
  | Ev.rollback _ :: tr => rollbackCount tr + 1
  | _ :: tr => rollbackCount tr

def attemptCount : List Ev → Nat
  | [] => 0
  | Ev.attempt _ :: tr => attemptCount tr + 1
  | _ :: tr => attemptCount tr

def sleepCount : List Ev → Nat
  | [] => 0
  | Ev.sleep :: tr => sleepCount tr + 1
  | _ :: tr => sleepCount tr

def fetchCount : List Ev → Nat
  | [] => 0
  | Ev.fetch :: tr => fetchCount tr + 1
  | _ :: tr => fetchCount tr

/-- Connection numbers used by the operation invocations, in order. -/
def invokeConns : List Ev → List Nat
  | [] => []
  | Ev.invoke c _ :: tr => c :: invokeConns tr
  | _ :: tr => invokeConns tr

/-- Attempt indices logged by the retry loop, in order. -/
def attemptIdxs : List Ev → List Nat
  | [] => []
  | Ev.attempt i :: tr => i :: attemptIdxs tr
  | _ :: tr => attemptIdxs tr

/-- An operation body whose outcome is fixed and which performs no
observable events of its own; `Nat` argument is the connection it is
handed. -/
def funOf (r : Except PyErr PVal) : Nat → Except PyErr PVal × List Ev :=
  fun _ => (r, [])

/-- Embeds `with_db_connection` as defined in 2-transactional.py,
3-retry_on_failure.py and 4-cache_query.py: open a connection (number
0, fresh for this call), run the wrapped function with it, close the
connection in the `finally` block on every path.  Both the
`except sqlite3.Error: raise` branch and an uncaught non-database
exception re-raise the original error after the close, so the outcome
equals the inner outcome in every case and no commit or rollback is
issued. -/
def with_db_connection (inner : Nat → Except PyErr PVal × List Ev) :
    Except PyErr PVal × List Ev :=
  let r := inner 0
  (r.1, Ev.acquire 0 :: r.2 ++ [Ev.close 0])

/-- Embeds the standalone Task 1 variant of `with_db_connection`
(1-with_db_connection.py): on success it calls conn.commit() before
returning; on sqlite3.Error it calls conn.rollback() and re-raises;
any other exception propagates with no rollback; the `finally` block
closes the connection on every path. -/
def with_db_connection_task1 (inner : Nat → Except PyErr PVal × List Ev) :
    Except PyErr PVal × List Ev :=
  let r := inner 0
  match r.1 with
  | .ok v => (.ok v, Ev.acquire 0 :: r.2 ++ [Ev.commit 0, Ev.close 0])
  | .error (.sqlite m) =>
      (.error (.sqlite m), Ev.acquire 0 :: r.2 ++ [Ev.rollback 0, Ev.close 0])
  | .error e => (.error e, Ev.acquire 0 :: r.2 ++ [Ev.close 0])

/-- First argument handed to a transactional-wrapped function: either a
live sqlite3.Connection (numbered) or some other Python value, which
fails the isinstance check. -/
inductive FirstArg where
  | conn (c : Nat)
  | notConn (v : PVal)
deriving DecidableEq, Repr

/-- Embeds `transactional` (2-transactional.py): reject a first argument
that is not a sqlite3.Connection with a TypeError before touching the
store; otherwise run the function, commit on normal return, and on any
exception roll back and re-raise the original exception unchanged. -/
def transactional (inner : Nat → Except PyErr PVal × List Ev) (a : FirstArg) :
    Except PyErr PVal × List Ev :=
  match a with
  | .notConn _ => (.error .typeError, [])
  | .conn c =>
    let r := inner c
    match r.1 with
    | .ok v => (.ok v, r.2 ++ [Ev.commit c])
    | .error e => (.error e, r.2 ++ [Ev.rollback c])

/-- Embeds the loop body of `retry_on_failure` (3-retry_on_failure.py):
`rem` is the number of tries still allowed after the current one
(`retries - i` in the source); on success return at once, on failure
either sleep and recurse when tries remain (`i < retries`) or re-raise
the last exception. -/
def retryAux (inner : Nat → Except PyErr PVal × List Ev) :
    Nat → Nat → Except PyErr PVal × List Ev
  | 0, i =>
    match inner i with
    | (.ok v, evs) => (.ok v, Ev.attempt i :: evs)
    | (.error e, evs) => (.error e, Ev.attempt i :: evs)
  | rem + 1, i =>
    match inner i with
    | (.ok v, evs) => (.ok v, Ev.attempt i :: evs)
    | (.error _, evs) =>
      let rest := retryAux inner rem (i + 1)
      (rest.1, Ev.attempt i :: evs ++ Ev.sleep :: rest.2)

/-- Embeds `retry_on_failure(retries, delay)`: the source iterates
`for i in range(retries + 1)`, i.e. one initial try plus up to
`retries` further tries.  The delay value does not affect the event
structure, only the sleep duration, so it is dropped. -/
def retry_on_failure (retries : Nat) (inner : Nat → Except PyErr PVal × List Ev) :
    Except PyErr PVal × List Ev :=
  retryAux inner retries 0

/-- Operation whose attempt `i` yields outcome `outs i` with no events
of its own (for reasoning about the bare retry decorator). -/
def opSeq (outs : Nat → Except PyErr PVal) : Nat → Except PyErr PVal × List Ev :=
  fun i => (outs i, [])

/-- Operation run against connection `c` whose attempt `i` yields
outcome `outs i` and records which connection it used. -/
def connOp (outs : Nat → Except PyErr PVal) (c : Nat) :
    Nat → Except PyErr PVal × List Ev :=
  fun i => (outs i, [Ev.invoke c i])

/-- Embeds the decorated `fetch_users_with_retry` composition of
3-retry_on_failure.py: `@with_db_connection` is the outer decorator and
`@retry_on_failure(...)` the inner one, so the retry loop runs entirely
inside one connection scope. -/
def fetch_users_with_retry (retries : Nat)
    (outs : Nat → Except PyErr PVal) : Except PyErr PVal × List Ev :=
  with_db_connection (fun c => retry_on_failure retries (connOp outs c))

/-- Event trace of a retry run that makes tries `i, i+1, ..., i+k`, the
last one not followed by a sleep: a sleep separates consecutive tries
and never trails the final one. -/
def shiftTrace (i : Nat) : Nat → List Ev
  | 0 => [Ev.attempt i]
  | k + 1 => Ev.attempt i :: Ev.sleep :: shiftTrace (i + 1) k

/-- Trace of a retry run with tries `0 .. n`. -/
def retryTrace (n : Nat) : List Ev := shiftTrace 0 n

/-- Expected event trace of the retry loop run over one fixed connection
`c`: each try logs its attempt index and invokes the operation on `c`,
failed tries are followed by a sleep, and the loop ends at the first
success or when no tries remain. -/
def connTrace (outs : Nat → Except PyErr PVal) (c : Nat) : Nat → Nat → List Ev
  | 0, i => [Ev.attempt i, Ev.invoke c i]
  | rem + 1, i =>
    match outs i with
    | .ok _ => [Ev.attempt i, Ev.invoke c i]
    | .error _ => Ev.attempt i :: Ev.invoke c i :: Ev.sleep :: connTrace outs c rem (i + 1)

/-- Outcome sequence that fails on every attempt, as an operation whose
backing store stays down. -/
def alwaysFailSeq : Nat → Except PyErr PVal :=
  fun _ => .error (.sqlite "database is locked")

/-- Outcome sequence failing on the first two attempts and succeeding on
the third, as in the spec scenario. -/
def failTwiceSeq : Nat → Except PyErr PVal :=
  fun i => if i < 2 then .error (.sqlite "database is locked") else .ok (.vint 7)

/-- Outcome sequence failing only on the first attempt, as the demo
function of 3-retry_on_failure.py simulates. -/
def failOnceSeq : Nat → Except PyErr PVal :=
  fun i => if i = 0 then .error (.sqlite "temporarily unavailable") else .ok (.vint 1)

/-- Row of the `user_data` table as the batch generator sees it; only the
age column matters to the filtering stage. -/
structure UserRow where
  name : String
  age : Int
deriving DecidableEq, Repr

/-- Fetch loop of `stream_users_in_batches` (1-batch_processing.py): each
iteration takes up to `bs` rows from the remaining cursor contents and
stops at the first empty fetch.  The fuel argument only bounds the
recursion; `chunksOf` supplies enough for the whole list. -/
def chunksAux {α : Type} : Nat → Nat → List α → List (List α)
  | 0, _, _ => []
  | fuel + 1, bs, l =>
    let b := l.take bs
    if b.isEmpty then [] else b :: chunksAux fuel bs (l.drop bs)

/-- Batches produced by repeatedly calling fetchmany(bs) on a cursor
positioned over `l`. -/
def chunksOf {α : Type} (bs : Nat) (l : List α) : List (List α) :=
  chunksAux l.length bs l

/-- Embeds `stream_users_in_batches(batch_size)` viewed as the finite
sequence of batches it yields over a source of rows. -/
def stream_users_in_batches (batch_size : Nat) (rows : List UserRow) :
    List (List UserRow) :=
  chunksOf batch_size rows

/-- Embeds `batch_processing(batch_size)`: for each yielded batch, yield
the users with age strictly greater than 25, in order. -/
def batch_processing (batch_size : Nat) (rows : List UserRow) : List UserRow :=
  (stream_users_in_batches batch_size rows).flatMap fun batch =>
    batch.filter fun u => decide (25 < u.age)

/-- Loop iterations of the generator body of `stream_users_in_batches`
under `pulls` consumer requests: each satisfied request costs one fetch
and yields one batch; the request after the last batch triggers the
final empty fetch, after which the lines following the loop close the
connection; with fewer requests the generator is abandoned suspended at
a yield and those close lines never run. -/
def streamGo {α : Type} : List (List α) → Nat → List Ev
  | _, 0 => []
  | [], _ + 1 => [Ev.fetch, Ev.close 0]
  | b :: rest, p + 1 => Ev.fetch :: Ev.yieldBatch b.length :: streamGo rest p

/-- Events of one `stream_users_in_batches` generator consumed for
`pulls` requests; a generator never iterated does not even open the
connection, since the body only starts running on the first request. -/
def streamEvents {α : Type} (rows : List α) (bs : Nat) (pulls : Nat) : List Ev :=
  match pulls with
  | 0 => []
  | p + 1 => Ev.acquire 0 :: streamGo (chunksOf bs rows) (p + 1)

/-- Concrete five-row source used by the streaming scenarios. -/
def demoRows5 : List UserRow :=
  [⟨"a", 30⟩, ⟨"b", 22⟩, ⟨"c", 40⟩, ⟨"d", 25⟩, ⟨"e", 28⟩]

/-- Lexicographic code-point comparison of character lists; this is the
order Python's sorted() induces on the kwargs names. -/
def chLt : List Char → List Char → Bool
  | [], [] => false
  | [], _ :: _ => true
  | _ :: _, [] => false
  | a :: as, b :: bs =>
    if a.toNat < b.toNat then true
    else if b.toNat < a.toNat then false
    else chLt as bs

/-- Order on kwargs items used by `sorted(kwargs.items())`: item `p`
comes no later than item `q` when `q`'s name is not below `p`'s.
Python compares the full (name, value) tuples, but kwargs names are
unique in any call, so the name alone decides every comparison that
actually happens. -/
def kwLe (p q : String × PVal) : Prop := chLt q.1.data p.1.data = false

/-- Strict version of `kwLe`, comparing names only. -/
def kwLt (p q : String × PVal) : Prop := chLt p.1.data q.1.data = true

instance kwLeDec : DecidableRel kwLe :=
  fun p q => inferInstanceAs (Decidable (_ = false))

/-- Embeds `sorted(kwargs.items())` of the cache-key derivation. -/
def sortedKwargs (kw : List (String × PVal)) : List (String × PVal) :=
  List.insertionSort kwLe kw

/-- Embeds `kwargs.get(name)` on the keyword-argument mapping. -/
def getKwarg (kw : List (String × PVal)) (k : String) : Option PVal :=
  (kw.find? fun p => decide (p.1 = k)).map fun p => p.2

/-- Embeds the cache-key tuple built by `cache_query` (4-cache_query.py):
the query value first, then every positional argument as passed, then
the non-query keyword items sorted by name, each as a (name, value)
tuple. -/
def cache_query_key (q : PVal) (args : List PVal) (kwargs : List (String × PVal)) :
    List PVal :=
  q :: args ++ (((sortedKwargs kwargs).filter fun p => decide (¬ p.1 = "query")).map
    fun p => PVal.vpair (.vstr p.1) p.2)

/-- Element of a Python list result: a sqlite3.Row, a plain tuple (the
detached form stored in the cache), or any other value. -/
inductive Elem where
  | row (cells : List PVal)
  | tup (cells : List PVal)
  | other (v : PVal)
deriving DecidableEq, Repr

/-- Python object returned by a wrapped operation or stored in the
query cache: None, a list, or some other base value. -/
inductive Obj where
  | none
  | pylist (elems : List Elem)
  | base (v : PVal)
deriving DecidableEq, Repr

/-- Python truthiness of result objects. -/
def truthyObj : Obj → Bool
  | .none => false
  | .pylist es => !es.isEmpty
  | .base v => truthyPVal v

def isRowElem : Elem → Bool
  | .row _ => true
  | _ => false

def rowToTup : Elem → Elem
  | .row cs => .tup cs
  | e => e

/-- Row reconstruction performed by the return comprehension, modelled
structurally as rebuilding a Row holding the stored cells. -/
def elemToRow : Elem → Elem
  | .tup cs => .row cs
  | .row cs => .row cs
  | .other v => .other v

/-- Embeds the miss-path conversion of `cache_query`: a list whose
elements are all Rows becomes a list of plain tuples; any other result
is stored as is. -/
def toCacheable : Obj → Obj
  | .pylist es => if es.all isRowElem then .pylist (es.map rowToTup) else .pylist es
  | x => x

/-- Embeds the shared return expression of both cache paths,
`[sqlite3.Row(row) for row in r] if r else []`: a falsy value yields a
newly built empty list, a truthy list is rebuilt element by element.
(The source would iterate a truthy non-list value here; the claims only
exercise list and falsy results, so such a value passes through.) -/
def materializeReturn (r : Obj) : Obj :=
  if truthyObj r then
    match r with
    | .pylist es => .pylist (es.map elemToRow)
    | x => x
  else .pylist []

/-- Lookup in the process-wide query_cache dictionary, modelled as an
association list from key tuples to stored results. -/
def cacheLookup (st : List (List PVal × Obj)) (k : List PVal) : Option Obj :=
  (st.find? fun e => decide (e.1 = k)).map fun e => e.2

/-- Observable outcome of one cache_query-wrapped call: the value handed
to the caller, the cache afterwards, and whether the wrapped operation
was invoked. -/
structure CallOut where
  ret : Obj
  cache : List (List PVal × Obj)
  invoked : Bool
deriving DecidableEq, Repr

/-- Embeds the wrapper of `cache_query` (4-cache_query.py): without a
truthy `query` keyword argument the call passes straight through with
no caching; otherwise the key is derived, a hit returns a
rematerialized copy of the stored entry without invoking the operation,
and a miss invokes the operation (whose result is `op`), stores the
detached form under the key, and returns a materialized copy. -/
def cache_query_call (op : Obj) (st : List (List PVal × Obj))
    (args : List PVal) (kwargs : List (String × PVal)) : CallOut :=
  match getKwarg kwargs "query" with
  | Option.none => { ret := op, cache := st, invoked := true }
  | some q =>
    if truthyPVal q = false then { ret := op, cache := st, invoked := true }
    else
      let key := cache_query_key q args kwargs
      match cacheLookup st key with
      | some stored => { ret := materializeReturn stored, cache := st, invoked := false }
      | Option.none =>
        let cacheable := toCacheable op
        { ret := materializeReturn cacheable
          cache := (key, cacheable) :: st
          invoked := true }

/-- Runs `n` identical cache_query-wrapped calls against an initial
cache, threading the cache through and totalling how often the wrapped
operation is invoked. -/
def runCalls (op : Obj) (args : List PVal) (kwargs : List (String × PVal)) :
    Nat → List (List PVal × Obj) → List (List PVal × Obj) × Nat
  | 0, st => (st, 0)
  | n + 1, st =>
    let out := cache_query_call op st args kwargs
    let rest := runCalls op args kwargs n out.cache
    (rest.1, (if out.invoked then 1 else 0) + rest.2)

/-- Keyword arguments of the parameterized demo call of
4-cache_query.py. -/
def demoKwargs : List (String × PVal) :=
  [("query", .vstr "SELECT * FROM users WHERE id = ?"), ("user_id", .vint 1)]

/-- A one-row result list as the demo fetch returns it. -/
def demoRowsObj : Obj := .pylist [.row [.vint 1, .vstr "Blandine"]]

end AlxMw

namespace AlxMw

theorem acquireCount_append :
    ∀ (l₁ l₂ : List Ev), acquireCount (l₁ ++ l₂) = acquireCount l₁ + acquireCount l₂ := by
  intro l₁ l₂
  induction l₁ with
  | nil => simp [acquireCount]
  | cons e tr ih => cases e <;> simp [acquireCount, ih] <;> omega

theorem closeCount_append :
    ∀ (l₁ l₂ : List Ev), closeCount (l₁ ++ l₂) = closeCount l₁ + closeCount l₂ := by
  intro l₁ l₂
  induction l₁ with
  | nil => simp [closeCount]
  | cons e tr ih => cases e <;> simp [closeCount, ih] <;> omega

theorem commitCount_append :
    ∀ (l₁ l₂ : List Ev), commitCount (l₁ ++ l₂) = commitCount l₁ + commitCount l₂ := by
  intro l₁ l₂
  induction l₁ with
  | nil => simp [commitCount]
  | cons e tr ih => cases e <;> simp [commitCount, ih] <;> omega

theorem rollbackCount_append :
    ∀ (l₁ l₂ : List Ev), rollbackCount (l₁ ++ l₂) = rollbackCount l₁ + rollbackCount l₂ := by
  intro l₁ l₂
  induction l₁ with
  | nil => simp [rollbackCount]
  | cons e tr ih => cases e <;> simp [rollbackCount, ih] <;> omega

theorem attemptCount_append :
    ∀ (l₁ l₂ : List Ev), attemptCount (l₁ ++ l₂) = attemptCount l₁ + attemptCount l₂ := by
  intro l₁ l₂
  induction l₁ with
  | nil => simp [attemptCount]
  | cons e tr ih => cases e <;> simp [attemptCount, ih] <;> omega

theorem invokeConns_append :
    ∀ (l₁ l₂ : List Ev), invokeConns (l₁ ++ l₂) = invokeConns l₁ ++ invokeConns l₂ := by
  intro l₁ l₂
  induction l₁ with
  | nil => simp [invokeConns]
  | cons e tr ih => cases e <;> simp [invokeConns, ih]

theorem attemptIdxs_append :
    ∀ (l₁ l₂ : List Ev), attemptIdxs (l₁ ++ l₂) = attemptIdxs l₁ ++ attemptIdxs l₂ := by
  intro l₁ l₂
  induction l₁ with
  | nil => simp [attemptIdxs]
  | cons e tr ih => cases e <;> simp [attemptIdxs, ih]

theorem shiftTrace_attemptCount : ∀ (k i : Nat), attemptCount (shiftTrace i k) = k + 1 := by
  intro k
  induction k with
  | zero => intro i; simp [shiftTrace, attemptCount]
  | succ k ih =>
    intro i
    simp [shiftTrace, attemptCount, ih (i + 1)]

theorem shiftTrace_sleepCount : ∀ (k i : Nat), sleepCount (shiftTrace i k) = k := by
  intro k
  induction k with
  | zero => intro i; simp [shiftTrace, sleepCount]
  | succ k ih =>
    intro i
    simp [shiftTrace, sleepCount, ih (i + 1)]

theorem shiftTrace_getLast :
    ∀ (k i : Nat), (shiftTrace i k).getLast? = some (Ev.attempt (i + k)) := by
  intro k
  induction k with
  | zero => intro i; simp [shiftTrace]
  | succ k ih =>
    intro i
    rw [shiftTrace, List.getLast?_cons_cons]
    cases k with
    | zero => simp [shiftTrace]
    | succ j =>
      rw [shiftTrace, List.getLast?_cons_cons,
        show (Ev.attempt (i + 1) :: Ev.sleep :: shiftTrace (i + 1 + 1) j)
            = shiftTrace (i + 1) (j + 1) from rfl,
        ih (i + 1)]
      have h : i + 1 + (j + 1) = i + (j + 1 + 1) := by omega
      rw [h]

theorem retryAux_ok (outs : Nat → Except PyErr PVal) (errOf : Nat → PyErr) (v : PVal) :
    ∀ (k : Nat), ∀ (i rem : Nat),
      (∀ j, j < k → outs (i + j) = .error (errOf (i + j))) →
      outs (i + k) = .ok v → k ≤ rem →
      retryAux (opSeq outs) rem i = (.ok v, shiftTrace i k) := by
  intro k
  induction k with
  | zero =>
    intro i rem _ hok _
    simp only [Nat.add_zero] at hok
    cases rem with
    | zero => simp [retryAux, opSeq, hok, shiftTrace]
    | succ rem => simp [retryAux, opSeq, hok, shiftTrace]
  | succ k ih =>
    intro i rem hf hok hle
    cases rem with
    | zero => omega
    | succ rem =>
      have h0 : outs i = .error (errOf i) := by
        have := hf 0 (by omega)
        simpa using this
      have hrest : retryAux (opSeq outs) rem (i + 1) = (.ok v, shiftTrace (i + 1) k) := by
        refine ih (i + 1) rem ?_ ?_ (by omega)
        · intro j hj
          have := hf (j + 1) (by omega)
          have e1 : i + (j + 1) = i + 1 + j := by omega
          rwa [e1] at this
        · have e2 : i + (k + 1) = i + 1 + k := by omega
          rwa [e2] at hok
      simp [retryAux, opSeq, h0, hrest, shiftTrace]

theorem retryAux_err (outs : Nat → Except PyErr PVal) (errOf : Nat → PyErr) :
    ∀ (rem : Nat), ∀ (i : Nat),
      (∀ j, j ≤ rem → outs (i + j) = .error (errOf (i + j))) →
      retryAux (opSeq outs) rem i = (.error (errOf (i + rem)), shiftTrace i rem) := by
  intro rem
  induction rem with
  | zero =>
    intro i hf
    have h0 : outs i = .error (errOf i) := by
      have := hf 0 (by omega)
      simpa using this
    simp [retryAux, opSeq, h0, shiftTrace]
  | succ rem ih =>
    intro i hf
    have h0 : outs i = .error (errOf i) := by
      have := hf 0 (by omega)
      simpa using this
    have hrest := ih (i + 1) (by
      intro j hj
      have := hf (j + 1) (by omega)
      have e1 : i + (j + 1) = i + 1 + j := by omega
      rwa [e1] at this)
    have e2 : i + 1 + rem = i + (rem + 1) := by omega
    rw [e2] at hrest
    simp [retryAux, opSeq, h0, hrest, shiftTrace]

/-- C1 amended: the `retry_on_failure` configuration option counts the
extra tries after the first one, so the total number of tries is the
option value plus one.  An operation failing on the first `k` tries and
succeeding on try `k+1` (with `k` at most the option value) returns the
success result after exactly `k+1` invocations and `k` delays; an
operation failing on every try raises the last failure after exactly
`retries + 1` invocations with exactly `retries` inter-attempt delays;
each delay sits between two consecutive tries and none follows the
last, as the trace shape records. -/
theorem retry_semantics :
    ∀ (retries k : Nat) (outs : Nat → Except PyErr PVal) (errOf : Nat → PyErr) (v : PVal),
      ((∀ j, j < k → outs j = .error (errOf j)) → outs k = .ok v → k ≤ retries →
        retry_on_failure retries (opSeq outs) = (.ok v, retryTrace k))
      ∧ ((∀ j, j ≤ retries → outs j = .error (errOf j)) →
        retry_on_failure retries (opSeq outs)
          = (.error (errOf retries), retryTrace retries))
      ∧ attemptCount (retryTrace k) = k + 1
      ∧ sleepCount (retryTrace k) = k
      ∧ (retryTrace k).getLast? = some (Ev.attempt k) := by
  intro retries k outs errOf v
  refine ⟨?_, ?_, ?_, ?_, ?_⟩
  · intro hf hok hle
    exact retryAux_ok outs errOf v k 0 retries
      (fun j hj => by simpa using hf j hj) (by simpa using hok) hle
  · intro hf
    have := retryAux_err outs errOf retries 0 (fun j hj => by simpa using hf j hj)
    simpa [retry_on_failure, retryTrace] using this
  · exact shiftTrace_attemptCount k 0
  · exact shiftTrace_sleepCount k 0
  · have := shiftTrace_getLast k 0
    simpa [retryTrace] using this

theorem retry_semantics_witness :
    (∀ j, j < 2 → failTwiceSeq j = .error (.sqlite "database is locked"))
    ∧ failTwiceSeq 2 = .ok (.vint 7)
    ∧ 2 ≤ 3
    ∧ retry_on_failure 3 (opSeq failTwiceSeq) = (.ok (.vint 7), retryTrace 2) :=
  ⟨by intro j hj; interval_cases j <;> rfl, rfl, by omega,
    (retry_semantics 3 2 failTwiceSeq (fun _ => .sqlite "database is locked") (.vint 7)).1
      (by intro j hj; interval_cases j <;> rfl) rfl (by omega)⟩

theorem retryAux_connOp_trace (outs : Nat → Except PyErr PVal) (c : Nat) :
    ∀ (rem i : Nat), (retryAux (connOp outs c) rem i).2 = connTrace outs c rem i := by
  intro rem
  induction rem with
  | zero => intro i; cases houts : outs i <;> simp [retryAux, connOp, connTrace, houts]
  | succ rem ih =>
    intro i
    cases houts : outs i <;> simp [retryAux, connOp, connTrace, houts, ih]

theorem connTrace_acquireCount (outs : Nat → Except PyErr PVal) (c : Nat) :
    ∀ (rem i : Nat), acquireCount (connTrace outs c rem i) = 0 := by
  intro rem
  induction rem with
  | zero => intro i; simp [connTrace, acquireCount]
  | succ rem ih =>
    intro i
    cases houts : outs i <;>
      simp [connTrace, houts, acquireCount, ih (i + 1)]

theorem connTrace_closeCount (outs : Nat → Except PyErr PVal) (c : Nat) :
    ∀ (rem i : Nat), closeCount (connTrace outs c rem i) = 0 := by
  intro rem
  induction rem with
  | zero => intro i; simp [connTrace, closeCount]
  | succ rem ih =>
    intro i
    cases houts : outs i <;>
      simp [connTrace, houts, closeCount, ih (i + 1)]

theorem connTrace_invokeConns (outs : Nat → Except PyErr PVal) (c : Nat) :
    ∀ (rem i : Nat),
      invokeConns (connTrace outs c rem i)
        = List.replicate (attemptCount (connTrace outs c rem i)) c := by
  intro rem
  induction rem with
  | zero =>
    intro i
    simp [connTrace, invokeConns, attemptCount, List.replicate]
  | succ rem ih =>
    intro i
    cases houts : outs i with
    | ok v => simp [connTrace, houts, invokeConns, attemptCount, List.replicate]
    | error e =>
      simp [connTrace, houts, invokeConns, attemptCount,
        List.replicate_succ, ih (i + 1)]

theorem connTrace_attemptIdxs (outs : Nat → Except PyErr PVal) (c : Nat) :
    ∀ (rem i : Nat),
      attemptIdxs (connTrace outs c rem i)
        = (List.range (attemptCount (connTrace outs c rem i))).map (i + ·) := by
  intro rem
  induction rem with
  | zero =>
    intro i
    simp [connTrace, attemptIdxs, attemptCount, List.range_succ]
  | succ rem ih =>
    intro i
    cases houts : outs i with
    | ok v =>
      simp [connTrace, houts, attemptIdxs, attemptCount, List.range_succ]
    | error e =>
      have hih := ih (i + 1)
      simp only [connTrace, houts, attemptIdxs, attemptCount] at hih ⊢
      rw [hih]
      rw [List.range_succ_eq_map, List.map_cons, List.map_map]
      simp only [Nat.add_zero]
      congr 1
      refine List.map_congr_left ?_
      intro a _
      simp only [Function.comp_apply]
      omega

/-- C2 counterexample: in the source composition `fetch_users_with_retry`
the connection decorator is the outer layer, so after the first attempt
fails, the second attempt is invoked on the same connection 0 with no
intervening release: only one acquire occurs for two attempts and the
connection list of the attempts has a repeat. -/
theorem composition_retry_reuses_connection :
    (fetch_users_with_retry 3 failOnceSeq).2
        = [Ev.acquire 0, Ev.attempt 0, Ev.invoke 0 0, Ev.sleep,
           Ev.attempt 1, Ev.invoke 0 1, Ev.close 0]
    ∧ failOnceSeq 0 = .error (.sqlite "temporarily unavailable")
    ∧ acquireCount (fetch_users_with_retry 3 failOnceSeq).2 = 1
    ∧ invokeConns (fetch_users_with_retry 3 failOnceSeq).2 = [0, 0]
    ∧ ¬ (invokeConns (fetch_users_with_retry 3 failOnceSeq).2).Nodup := by
  refine ⟨rfl, rfl, rfl, rfl, by decide⟩

/-- C2 amended: in the composition of 3-retry_on_failure.py,
ConnectionScope is the outer layer and RetryPolicy the inner one: one
single connection is acquired before the first attempt, every attempt
(including retries of failed attempts) runs against that same
connection 0, and the one release happens after the last attempt;
attempts remain strictly sequential, their logged indices being
0, 1, 2, ... in trace order. -/
theorem composition_connection_sharing :
    ∀ (retries : Nat) (outs : Nat → Except PyErr PVal),
      (fetch_users_with_retry retries outs).2
          = Ev.acquire 0 :: (retry_on_failure retries (connOp outs 0)).2 ++ [Ev.close 0]
      ∧ acquireCount (fetch_users_with_retry retries outs).2 = 1
      ∧ closeCount (fetch_users_with_retry retries outs).2 = 1
      ∧ (fetch_users_with_retry retries outs).2.head? = some (Ev.acquire 0)
      ∧ (fetch_users_with_retry retries outs).2.getLast? = some (Ev.close 0)
      ∧ invokeConns (fetch_users_with_retry retries outs).2
          = List.replicate (attemptCount (fetch_users_with_retry retries outs).2) 0
      ∧ attemptIdxs (fetch_users_with_retry retries outs).2
          = List.range (attemptCount (fetch_users_with_retry retries outs).2) := by
  intro retries outs
  have ht : (retryAux (connOp outs 0) retries 0).2 = connTrace outs 0 retries 0 :=
    retryAux_connOp_trace outs 0 retries 0
  have hic : invokeConns (fetch_users_with_retry retries outs).2
      = invokeConns (connTrace outs 0 retries 0) := by
    simp [fetch_users_with_retry, with_db_connection, retry_on_failure,
      invokeConns_append, invokeConns, ht]
  have hac : attemptCount (fetch_users_with_retry retries outs).2
      = attemptCount (connTrace outs 0 retries 0) := by
    simp [fetch_users_with_retry, with_db_connection, retry_on_failure,
      attemptCount_append, attemptCount, ht]
  have hxc : attemptIdxs (fetch_users_with_retry retries outs).2
      = attemptIdxs (connTrace outs 0 retries 0) := by
    simp [fetch_users_with_retry, with_db_connection, retry_on_failure,
      attemptIdxs_append, attemptIdxs, ht]
  refine ⟨rfl, ?_, ?_, rfl, ?_, ?_, ?_⟩
  · simp [fetch_users_with_retry, with_db_connection, retry_on_failure,
      acquireCount_append, acquireCount, ht, connTrace_acquireCount outs 0 retries 0]
  · simp [fetch_users_with_retry, with_db_connection, retry_on_failure,
      closeCount_append, closeCount, ht, connTrace_closeCount outs 0 retries 0]
  · exact List.getLast?_concat _
  · rw [hic, hac, connTrace_invokeConns outs 0 retries 0]
  · rw [hxc, hac, connTrace_attemptIdxs outs 0 retries 0]
    refine List.map_congr_left ?_ |>.trans (List.map_id _)
    intro a _
    exact Nat.zero_add a

/-- C3: for every operation wrapped by `transactional` and invoked with a
valid open connection, a normal return leads to exactly one commit and
no rollback, and a raised failure leads to exactly one rollback, no
commit, and the original failure object re-raised unchanged. -/
theorem transactional_commit_rollback_exact :
    ∀ (c : Nat) (v : PVal) (e : PyErr),
      transactional (funOf (.ok v)) (.conn c) = (.ok v, [Ev.commit c])
      ∧ transactional (funOf (.error e)) (.conn c) = (.error e, [Ev.rollback c])
      ∧ commitCount [Ev.commit c] = 1 ∧ rollbackCount [Ev.commit c] = 0
      ∧ commitCount [Ev.rollback c] = 0 ∧ rollbackCount [Ev.rollback c] = 1 := by
  intro c v e
  refine ⟨rfl, rfl, rfl, rfl, rfl, rfl⟩

/-- C4 counterexample: the Task 1 `with_db_connection` variant commits on
the success path (and the claim says ConnectionScope never commits or
rolls back on any path). -/
theorem connection_scope_task1_commits :
    commitCount (with_db_connection_task1 (funOf (.ok (.vint 1)))).2 = 1
    ∧ ¬ commitCount (with_db_connection_task1 (funOf (.ok (.vint 1)))).2 = 0
    ∧ rollbackCount
        (with_db_connection_task1 (funOf (.error (.sqlite "no such table")))).2 = 1 := by
  refine ⟨rfl, by decide, rfl⟩

/-- C4 amended: the `with_db_connection` variant shared by Tasks 2-4 adds
no commit and no rollback to the wrapped call on any path (its trace is
exactly acquire, the inner events, close), while the standalone Task 1
variant commits once on success, rolls back once on sqlite3.Error, and
does neither on any other exception. -/
theorem connection_scope_commit_rollback_profile :
    ∀ (inner : Nat → Except PyErr PVal × List Ev) (v : PVal) (m s : String),
      (with_db_connection inner).2 = Ev.acquire 0 :: (inner 0).2 ++ [Ev.close 0]
      ∧ commitCount (with_db_connection inner).2 = commitCount (inner 0).2
      ∧ rollbackCount (with_db_connection inner).2 = rollbackCount (inner 0).2
      ∧ commitCount (with_db_connection_task1 (funOf (.ok v))).2 = 1
      ∧ rollbackCount (with_db_connection_task1 (funOf (.ok v))).2 = 0
      ∧ commitCount (with_db_connection_task1 (funOf (.error (.sqlite m)))).2 = 0
      ∧ rollbackCount (with_db_connection_task1 (funOf (.error (.sqlite m)))).2 = 1
      ∧ commitCount (with_db_connection_task1 (funOf (.error (.valueError s)))).2 = 0
      ∧ rollbackCount (with_db_connection_task1 (funOf (.error (.valueError s)))).2 = 0 := by
  intro inner v m s
  refine ⟨rfl, ?_, ?_, rfl, rfl, rfl, rfl, rfl, rfl⟩
  · simp [with_db_connection, commitCount_append, commitCount]
  · simp [with_db_connection, rollbackCount_append, rollbackCount]

/-- C9: in the Task 1 `with_db_connection` variant, rollback is attempted
exactly when the wrapped operation raises a sqlite3.Error; any other
exception propagates unchanged with no rollback; the connection is
closed exactly once on every path. -/
theorem connection_scope_task1_rollback_only_sqlite :
    ∀ (m s : String) (v : PVal),
      (with_db_connection_task1 (funOf (.error (.sqlite m)))).1 = .error (.sqlite m)
      ∧ rollbackCount (with_db_connection_task1 (funOf (.error (.sqlite m)))).2 = 1
      ∧ closeCount (with_db_connection_task1 (funOf (.error (.sqlite m)))).2 = 1
      ∧ (with_db_connection_task1 (funOf (.error (.valueError s)))).1
          = .error (.valueError s)
      ∧ rollbackCount (with_db_connection_task1 (funOf (.error (.valueError s)))).2 = 0
      ∧ closeCount (with_db_connection_task1 (funOf (.error (.valueError s)))).2 = 1
      ∧ rollbackCount (with_db_connection_task1 (funOf (.error .zeroDiv))).2 = 0
      ∧ closeCount (with_db_connection_task1 (funOf (.error .zeroDiv))).2 = 1
      ∧ closeCount (with_db_connection_task1 (funOf (.ok v))).2 = 1 := by
  intro m s v
  refine ⟨rfl, rfl, rfl, rfl, rfl, rfl, rfl, rfl, rfl⟩

/-- C1 counterexample: `retry_on_failure` configured with its option set
to 3 (the source's own `retries=3`) makes 4 invocations and 3 delays
on an operation that fails every attempt, not the 3 invocations and 2
delays the claim derives from reading the option as a total-tries
count. -/
theorem retry_option_not_total_tries :
    attemptCount (retry_on_failure 3 (opSeq alwaysFailSeq)).2 = 4
    ∧ ¬ attemptCount (retry_on_failure 3 (opSeq alwaysFailSeq)).2 = 3
    ∧ sleepCount (retry_on_failure 3 (opSeq alwaysFailSeq)).2 = 3
    ∧ (retry_on_failure 3 (opSeq alwaysFailSeq)).1
        = .error (.sqlite "database is locked") := by
  refine ⟨rfl, by decide, rfl, rfl⟩

theorem flatMap_filter_flatten {α : Type} (p : α → Bool) :
    ∀ (L : List (List α)), (L.flatMap fun b => b.filter p) = L.flatten.filter p := by
  intro L
  induction L with
  | nil => simp
  | cons x X ih => simp [List.filter_append, ih]

theorem streamGo_closeCount {α : Type} :
    ∀ (chunks : List (List α)) (pulls : Nat),
      (chunks.length < pulls → closeCount (streamGo chunks pulls) = 1)
      ∧ (pulls ≤ chunks.length → closeCount (streamGo chunks pulls) = 0) := by
  intro chunks
  induction chunks with
  | nil =>
    intro pulls
    cases pulls with
    | zero => exact ⟨fun h => absurd h (by omega), fun _ => rfl⟩
    | succ p => exact ⟨fun _ => rfl, fun h => absurd h (by simp)⟩
  | cons b rest ih =>
    intro pulls
    cases pulls with
    | zero => exact ⟨fun h => absurd h (by omega), fun _ => rfl⟩
    | succ p =>
      refine ⟨fun h => ?_, fun h => ?_⟩
      · have hlt : rest.length < p := by
          simp only [List.length_cons] at h
          omega
        simpa [streamGo, closeCount] using (ih p).1 hlt
      · have hle : p ≤ rest.length := by
          simp only [List.length_cons] at h
          omega
        simpa [streamGo, closeCount] using (ih p).2 hle

theorem streamGo_fetchCount {α : Type} :
    ∀ (chunks : List (List α)) (pulls : Nat), pulls ≤ chunks.length →
      fetchCount (streamGo chunks pulls) = pulls := by
  intro chunks
  induction chunks with
  | nil =>
    intro pulls h
    have : pulls = 0 := by simpa using h
    subst this
    rfl
  | cons b rest ih =>
    intro pulls h
    cases pulls with
    | zero => rfl
    | succ p =>
      have hle : p ≤ rest.length := by
        simp only [List.length_cons] at h
        omega
      simp [streamGo, fetchCount, ih p hle]

theorem streamEvents_closeCount {α : Type} (rows : List α) (bs : Nat) :
    ∀ (pulls : Nat),
      ((chunksOf bs rows).length < pulls → closeCount (streamEvents rows bs pulls) = 1)
      ∧ (pulls ≤ (chunksOf bs rows).length → closeCount (streamEvents rows bs pulls) = 0) := by
  intro pulls
  cases pulls with
  | zero => exact ⟨fun h => absurd h (by omega), fun _ => rfl⟩
  | succ p =>
    refine ⟨fun h => ?_, fun h => ?_⟩
    · simpa [streamEvents, closeCount] using (streamGo_closeCount (chunksOf bs rows) (p + 1)).1 h
    · simpa [streamEvents, closeCount] using (streamGo_closeCount (chunksOf bs rows) (p + 1)).2 h

theorem streamEvents_fetchCount {α : Type} (rows : List α) (bs : Nat) :
    ∀ (pulls : Nat), pulls ≤ (chunksOf bs rows).length →
      fetchCount (streamEvents rows bs pulls) = pulls := by
  intro pulls h
  cases pulls with
  | zero => rfl
  | succ p =>
    simpa [streamEvents, fetchCount] using streamGo_fetchCount (chunksOf bs rows) (p + 1) h

/-- C7 counterexample: the consumer takes one batch of the five-row
stream with batch size 2 and abandons the generator; the manual close
calls after the fetch loop never run, so the connection is closed zero
times, not exactly once as the claim requires. -/
theorem stream_abandonment_skips_close :
    closeCount (streamEvents demoRows5 2 1) = 0
    ∧ ¬ closeCount (streamEvents demoRows5 2 1) = 1
    ∧ streamEvents demoRows5 2 1 = [Ev.acquire 0, Ev.fetch, Ev.yieldBatch 2] := by
  refine ⟨rfl, by decide, rfl⟩

/-- C7 amended: operations wrapped by the decorator `with_db_connection`
close their connection exactly once on normal return and on any raised
failure; the streaming read path closes its connection exactly once
only when the consumer keeps pulling past the last batch (triggering
the final empty fetch), and zero times when the consumer abandons the
stream at or before the last batch, because the generator closes via
trailing statements rather than scoped acquisition. -/
theorem connection_close_profile :
    ∀ (r : Except PyErr PVal) (rows : List UserRow) (bs pulls : Nat),
      closeCount (with_db_connection (funOf r)).2 = 1
      ∧ ((stream_users_in_batches bs rows).length < pulls →
          closeCount (streamEvents rows bs pulls) = 1)
      ∧ (pulls ≤ (stream_users_in_batches bs rows).length →
          closeCount (streamEvents rows bs pulls) = 0) := by
  intro r rows bs pulls
  exact ⟨rfl, (streamEvents_closeCount rows bs pulls).1,
    (streamEvents_closeCount rows bs pulls).2⟩

theorem connection_close_profile_witness :
    (stream_users_in_batches 2 demoRows5).length < 4
    ∧ closeCount (streamEvents demoRows5 2 4) = 1 :=
  ⟨by decide,
    (connection_close_profile (.ok (.vint 1)) demoRows5 2 4).2.1 (by decide)⟩

/-- C8: over any five-row source, batch size 2 yields batches of sizes
[2, 2, 1] whose concatenation is the source in original order; the
filtering stage yields exactly the rows with age strictly above 25, in
original order; and fetching is lazy: consuming `pulls` batches costs
exactly `pulls` fetches, so no batch is fetched before the consumer
requests an element that needs it. -/
theorem batch_streaming_semantics :
    ∀ (rows : List UserRow) (pulls : Nat), rows.length = 5 →
      (stream_users_in_batches 2 rows).map List.length = [2, 2, 1]
      ∧ (stream_users_in_batches 2 rows).flatten = rows
      ∧ batch_processing 2 rows = rows.filter (fun u => decide (25 < u.age))
      ∧ (pulls ≤ (stream_users_in_batches 2 rows).length →
          fetchCount (streamEvents rows 2 pulls) = pulls) := by
  intro rows pulls h5
  rcases rows with _ | ⟨a, rows⟩
  · simp at h5
  rcases rows with _ | ⟨b, rows⟩
  · simp at h5
  rcases rows with _ | ⟨c, rows⟩
  · simp at h5
  rcases rows with _ | ⟨d, rows⟩
  · simp at h5
  rcases rows with _ | ⟨e, rows⟩
  · simp at h5
  have hnil : rows = [] := by
    simp only [List.length_cons] at h5
    exact List.length_eq_zero.mp (by omega)
  subst hnil
  have hflat : (stream_users_in_batches 2 [a, b, c, d, e]).flatten = [a, b, c, d, e] := rfl
  refine ⟨rfl, hflat, ?_, ?_⟩
  · rw [batch_processing, flatMap_filter_flatten, hflat]
  · exact streamEvents_fetchCount [a, b, c, d, e] 2 pulls

theorem batch_streaming_semantics_witness :
    demoRows5.length = 5
    ∧ (stream_users_in_batches 2 demoRows5).map List.length = [2, 2, 1]
    ∧ batch_processing 2 demoRows5 = demoRows5.filter (fun u => decide (25 < u.age))
    ∧ 2 ≤ (stream_users_in_batches 2 demoRows5).length
    ∧ fetchCount (streamEvents demoRows5 2 2) = 2 :=
  ⟨rfl, (batch_streaming_semantics demoRows5 2 rfl).1,
    (batch_streaming_semantics demoRows5 2 rfl).2.2.1, by decide,
    (batch_streaming_semantics demoRows5 2 rfl).2.2.2 (by decide)⟩


theorem chLt_asymm : ∀ (as bs : List Char), chLt as bs = true → chLt bs as = false := by
  intro as
  induction as with
  | nil =>
    intro bs h
    cases bs with
    | nil => simp [chLt] at h
    | cons b bs => simp [chLt]
  | cons a as ih =>
    intro bs h
    cases bs with
    | nil => simp [chLt] at h
    | cons b bs =>
      rw [chLt] at h ⊢
      by_cases h1 : a.toNat < b.toNat
      · simp [h1, show ¬ b.toNat < a.toNat from by omega]
      · by_cases h2 : b.toNat < a.toNat
        · simp [h1, h2] at h
        · simp [h1, h2] at h ⊢
          exact ih bs h

theorem chLt_trans : ∀ (as bs cs : List Char),
    chLt as bs = true → chLt bs cs = true → chLt as cs = true := by
  intro as
  induction as with
  | nil =>
    intro bs cs h1 h2
    cases bs with
    | nil => simp [chLt] at h1
    | cons b bs =>
      cases cs with
      | nil => simp [chLt] at h2
      | cons c cs => simp [chLt]
  | cons a as ih =>
    intro bs cs h1 h2
    cases bs with
    | nil => simp [chLt] at h1
    | cons b bs =>
      cases cs with
      | nil => simp [chLt] at h2
      | cons c cs =>
        rw [chLt] at h1 h2 ⊢
        by_cases hab : a.toNat < b.toNat
        · by_cases hbc : b.toNat < c.toNat
          · simp [show a.toNat < c.toNat from by omega]
          · by_cases hcb : c.toNat < b.toNat
            · simp [hbc, hcb] at h2
            · simp [show a.toNat < c.toNat from by omega]
        · by_cases hba : b.toNat < a.toNat
          · simp [hab, hba] at h1
          · simp [hab, hba] at h1
            by_cases hbc : b.toNat < c.toNat
            · simp [show a.toNat < c.toNat from by omega]
            · by_cases hcb : c.toNat < b.toNat
              · simp [hbc, hcb] at h2
              · simp [hbc, hcb] at h2
                simp [show ¬ a.toNat < c.toNat from by omega,
                  show ¬ c.toNat < a.toNat from by omega]
                exact ih bs cs h1 h2

theorem charToNat_inj : ∀ (a b : Char), a.toNat = b.toNat → a = b := by
  intro a b h
  have ha := Char.ofNat_toNat a
  rw [h, Char.ofNat_toNat] at ha
  exact ha.symm

theorem chLt_eq_of_not_lt : ∀ (as bs : List Char),
    chLt as bs = false → chLt bs as = false → as = bs := by
  intro as
  induction as with
  | nil =>
    intro bs h1 _
    cases bs with
    | nil => rfl
    | cons b bs => simp [chLt] at h1
  | cons a as ih =>
    intro bs h1 h2
    cases bs with
    | nil => simp [chLt] at h2
    | cons b bs =>
      rw [chLt] at h1 h2
      by_cases hab : a.toNat < b.toNat
      · simp [hab] at h1
      · by_cases hba : b.toNat < a.toNat
        · simp [hba] at h2
        · simp [hab, hba] at h1 h2
          have hc : a = b := charToNat_inj a b (by omega)
          rw [hc, ih bs h1 h2]

theorem strDataInj : ∀ (a b : String), a.data = b.data → a = b := by
  intro a b h
  cases a
  cases b
  exact congrArg String.mk h

theorem kwLe_total : ∀ (p q : String × PVal), kwLe p q ∨ kwLe q p := by
  intro p q
  by_cases h : chLt q.1.data p.1.data = true
  · right
    exact chLt_asymm _ _ h
  · left
    exact Bool.eq_false_iff.mpr h

theorem kwLe_trans : ∀ (p q r : String × PVal), kwLe p q → kwLe q r → kwLe p r := by
  intro p q r h1 h2
  by_cases h : chLt r.1.data p.1.data = true
  · exfalso
    by_cases hqr : chLt q.1.data r.1.data = true
    · have hqp := chLt_trans _ _ _ hqr h
      rw [h1] at hqp
      exact absurd hqp (by simp)
    · have heq : q.1.data = r.1.data :=
        chLt_eq_of_not_lt _ _ (Bool.eq_false_iff.mpr hqr) h2
      rw [← heq] at h
      rw [h1] at h
      exact absurd h (by simp)
  · exact Bool.eq_false_iff.mpr h

theorem kwLt_asymm : ∀ (p q : String × PVal), kwLt p q → kwLt q p → False := by
  intro p q h1 h2
  unfold kwLt at h1 h2
  have h3 := chLt_asymm _ _ h1
  rw [h3] at h2
  exact absurd h2 (by simp)

theorem sorted_kwLe_strict : ∀ (l : List (String × PVal)), l.Sorted kwLe →
    (l.Pairwise fun a b => ¬ a.1 = b.1) → l.Sorted kwLt := by
  intro l hs hn
  refine (List.Pairwise.and hs hn).imp ?_
  rintro a b ⟨hle, hne⟩
  by_cases h : chLt a.1.data b.1.data = true
  · exact h
  · exfalso
    have heq := chLt_eq_of_not_lt _ _ (Bool.eq_false_iff.mpr h) hle
    exact hne (strDataInj _ _ heq)

theorem sortedKwargs_eq_of_perm : ∀ (kw1 kw2 : List (String × PVal)), kw1.Perm kw2 →
    (kw1.map Prod.fst).Nodup → sortedKwargs kw1 = sortedKwargs kw2 := by
  intro kw1 kw2 hp hnd
  haveI : IsTotal (String × PVal) kwLe := ⟨kwLe_total⟩
  haveI : IsTrans (String × PVal) kwLe := ⟨kwLe_trans⟩
  haveI : IsAntisymm (String × PVal) kwLt := ⟨fun a b h1 h2 => (kwLt_asymm a b h1 h2).elim⟩
  have hp1 := List.perm_insertionSort kwLe kw1
  have hp2 := List.perm_insertionSort kwLe kw2
  have hs1 := List.sorted_insertionSort kwLe kw1
  have hs2 := List.sorted_insertionSort kwLe kw2
  have hnd2 : (kw2.map Prod.fst).Nodup := (hp.map Prod.fst).nodup hnd
  have hn1 : (List.insertionSort kwLe kw1).Pairwise fun a b => ¬ a.1 = b.1 :=
    List.pairwise_map.mp (((hp1.map Prod.fst).symm).nodup hnd)
  have hn2 : (List.insertionSort kwLe kw2).Pairwise fun a b => ¬ a.1 = b.1 :=
    List.pairwise_map.mp (((hp2.map Prod.fst).symm).nodup hnd2)
  exact List.eq_of_perm_of_sorted (hp1.trans (hp.trans hp2.symm))
    (sorted_kwLe_strict _ hs1 hn1) (sorted_kwLe_strict _ hs2 hn2)

theorem vpairMap_inj :
    Function.Injective fun p : String × PVal => PVal.vpair (.vstr p.1) p.2 := by
  rintro ⟨k1, v1⟩ ⟨k2, v2⟩ h
  simp only [PVal.vpair.injEq, PVal.vstr.injEq] at h
  obtain ⟨h1, h2⟩ := h
  rw [h1, h2]

/-- C5 counterexample: a call passing the tuple ('user_id', 1) as a
positional argument and a call passing user_id=1 as a keyword argument
differ in their parameter values yet derive the identical cache key, so
two calls differing in a parameter value do not always produce
different keys. -/
theorem cache_key_positional_keyword_collision :
    cache_query_key (.vstr "q") [PVal.vpair (.vstr "user_id") (.vint 1)]
        [("query", PVal.vstr "q")]
      = cache_query_key (.vstr "q") []
        [("query", PVal.vstr "q"), ("user_id", PVal.vint 1)]
    ∧ ([PVal.vpair (.vstr "user_id") (.vint 1)] : List PVal) ≠ [] := by
  exact ⟨by decide, by decide⟩

/-- C5 amended: with the query and the positional arguments fixed, the
derived key does not depend on the order in which keyword arguments are
passed (any permutation of the kwargs items with distinct names yields
the same key), and two calls of the same shape whose keys agree carry
the same non-query keyword bindings up to reordering; but across
different argument shapes a positional tuple value collides with a
keyword binding, so value-distinctness only separates keys within one
shape. -/
theorem cache_key_properties :
    ∀ (q : PVal) (args : List PVal) (kw1 kw2 : List (String × PVal)),
      (kw1.Perm kw2 → (kw1.map Prod.fst).Nodup →
        cache_query_key q args kw1 = cache_query_key q args kw2)
      ∧ ((kw1.map Prod.fst).Nodup → (kw2.map Prod.fst).Nodup →
        cache_query_key q args kw1 = cache_query_key q args kw2 →
        (kw1.filter fun p => decide (¬ p.1 = "query")).Perm
          (kw2.filter fun p => decide (¬ p.1 = "query"))) := by
  intro q args kw1 kw2
  constructor
  · intro hp hnd
    unfold cache_query_key
    rw [show sortedKwargs kw1 = sortedKwargs kw2 from sortedKwargs_eq_of_perm kw1 kw2 hp hnd]
  · intro hnd1 hnd2 hkey
    unfold cache_query_key at hkey
    have hM := List.append_cancel_left hkey
    have hfil : (sortedKwargs kw1).filter (fun p => decide (¬ p.1 = "query"))
        = (sortedKwargs kw2).filter (fun p => decide (¬ p.1 = "query")) :=
      List.map_injective_iff.mpr vpairMap_inj hM
    have h2 : ((sortedKwargs kw1).filter fun p => decide (¬ p.1 = "query")).Perm
        (kw2.filter fun p => decide (¬ p.1 = "query")) := by
      rw [hfil]
      exact List.Perm.filter _ (List.perm_insertionSort kwLe kw2)
    exact (List.Perm.filter _ (List.perm_insertionSort kwLe kw1).symm).trans h2

theorem cache_key_properties_witness :
    ([("user_id", PVal.vint 1), ("query", PVal.vstr "q")] : List (String × PVal)).Perm
        [("query", PVal.vstr "q"), ("user_id", PVal.vint 1)]
    ∧ (([("user_id", PVal.vint 1), ("query", PVal.vstr "q")] :
        List (String × PVal)).map Prod.fst).Nodup
    ∧ cache_query_key (.vstr "q") [] [("user_id", PVal.vint 1), ("query", PVal.vstr "q")]
        = cache_query_key (.vstr "q") []
            [("query", PVal.vstr "q"), ("user_id", PVal.vint 1)] :=
  ⟨by decide, by decide,
    (cache_key_properties (.vstr "q") []
        [("user_id", PVal.vint 1), ("query", PVal.vstr "q")]
        [("query", PVal.vstr "q"), ("user_id", PVal.vint 1)]).1 (by decide) (by decide)⟩

theorem runCalls_hit (op : Obj) (args : List PVal) (kwargs : List (String × PVal))
    (q : PVal) (x : Obj) (hq : getKwarg kwargs "query" = some q)
    (ht : truthyPVal q = true) :
    ∀ (n : Nat) (st : List (List PVal × Obj)),
      cacheLookup st (cache_query_key q args kwargs) = some x →
      runCalls op args kwargs n st = (st, 0) := by
  intro n
  induction n with
  | zero => intro st _; rfl
  | succ n ih =>
    intro st hl
    have hcall : cache_query_call op st args kwargs
        = { ret := materializeReturn x, cache := st, invoked := false } := by
      simp [cache_query_call, hq, ht, hl]
    simp [runCalls, hcall, ih st hl]

/-- C6: against a fresh cache, a run of identical cache_query-wrapped
calls carrying a truthy query keyword invokes the wrapped operation
exactly once, on the first (miss) call; every later identical call hits
and never re-invokes it. -/
theorem cache_hit_never_reinvokes :
    ∀ (op : Obj) (args : List PVal) (kwargs : List (String × PVal)) (q : PVal) (n : Nat),
      getKwarg kwargs "query" = some q → truthyPVal q = true → 1 ≤ n →
      (runCalls op args kwargs n []).2 = 1 := by
  intro op args kwargs q n hq ht hn
  cases n with
  | zero => omega
  | succ m =>
    have hcall : cache_query_call op [] args kwargs
        = { ret := materializeReturn (toCacheable op)
            cache := [(cache_query_key q args kwargs, toCacheable op)]
            invoked := true } := by
      simp [cache_query_call, hq, ht, cacheLookup]
    have hl1 : cacheLookup [(cache_query_key q args kwargs, toCacheable op)]
        (cache_query_key q args kwargs) = some (toCacheable op) := by
      simp [cacheLookup, List.find?]
    simp [runCalls, hcall, runCalls_hit op args kwargs q (toCacheable op) hq ht m _ hl1]

theorem cache_hit_never_reinvokes_witness :
    getKwarg demoKwargs "query" = some (PVal.vstr "SELECT * FROM users WHERE id = ?")
    ∧ truthyPVal (PVal.vstr "SELECT * FROM users WHERE id = ?") = true
    ∧ 1 ≤ 3
    ∧ (runCalls demoRowsObj [] demoKwargs 3 []).2 = 1 :=
  ⟨rfl, by decide, by omega,
    cache_hit_never_reinvokes demoRowsObj [] demoKwargs
      (PVal.vstr "SELECT * FROM users WHERE id = ?") 3 rfl (by decide) (by omega)⟩

theorem truthy_toCacheable : ∀ (r : Obj), truthyObj (toCacheable r) = truthyObj r := by
  intro r
  cases r with
  | none => rfl
  | base v => rfl
  | pylist es =>
    by_cases h : es.all isRowElem
    · cases es <;> simp [toCacheable, truthyObj, h, List.isEmpty]
    · simp [toCacheable, truthyObj, h]

/-- C10: on both the hit path and the miss path of cache_query, a falsy
stored or freshly produced result (None, or an empty list) makes the
caller receive a newly built empty list, which in particular differs
from the operation's original return value whenever that value is not
itself an empty list; the stored entry object is never handed back on a
falsy hit. -/
theorem cache_falsy_coerced_to_fresh_empty_list :
    ∀ (st : List (List PVal × Obj)) (args : List PVal) (kwargs : List (String × PVal))
      (q : PVal) (stored op : Obj),
      getKwarg kwargs "query" = some q → truthyPVal q = true →
      ((cacheLookup st (cache_query_key q args kwargs) = some stored →
          truthyObj stored = false →
          (cache_query_call op st args kwargs).ret = .pylist []
          ∧ (¬ stored = Obj.pylist [] →
              ¬ (cache_query_call op st args kwargs).ret = stored))
      ∧ (cacheLookup st (cache_query_key q args kwargs) = Option.none →
          truthyObj op = false →
          (cache_query_call op st args kwargs).ret = .pylist []
          ∧ (¬ op = Obj.pylist [] →
              ¬ (cache_query_call op st args kwargs).ret = op))) := by
  intro st args kwargs q stored op hq ht
  constructor
  · intro hl hf
    have hret : (cache_query_call op st args kwargs).ret = materializeReturn stored := by
      simp [cache_query_call, hq, ht, hl]
    have hm : materializeReturn stored = .pylist [] := by
      simp [materializeReturn, hf]
    refine ⟨by rw [hret, hm], ?_⟩
    intro hne hcontra
    rw [hret, hm] at hcontra
    exact hne hcontra.symm
  · intro hl hf
    have hret : (cache_query_call op st args kwargs).ret
        = materializeReturn (toCacheable op) := by
      simp [cache_query_call, hq, ht, hl]
    have hm : materializeReturn (toCacheable op) = .pylist [] := by
      simp [materializeReturn, truthy_toCacheable op, hf]
    refine ⟨by rw [hret, hm], ?_⟩
    intro hne hcontra
    rw [hret, hm] at hcontra
    exact hne hcontra.symm

theorem cache_falsy_coerced_witness :
    getKwarg demoKwargs "query" = some (PVal.vstr "SELECT * FROM users WHERE id = ?")
    ∧ truthyPVal (PVal.vstr "SELECT * FROM users WHERE id = ?") = true
    ∧ cacheLookup
        [(cache_query_key (PVal.vstr "SELECT * FROM users WHERE id = ?") [] demoKwargs,
          Obj.none)]
        (cache_query_key (PVal.vstr "SELECT * FROM users WHERE id = ?") [] demoKwargs)
        = some Obj.none
    ∧ truthyObj Obj.none = false
    ∧ (cache_query_call demoRowsObj
        [(cache_query_key (PVal.vstr "SELECT * FROM users WHERE id = ?") [] demoKwargs,
          Obj.none)] [] demoKwargs).ret = Obj.pylist []
    ∧ ¬ (cache_query_call demoRowsObj
        [(cache_query_key (PVal.vstr "SELECT * FROM users WHERE id = ?") [] demoKwargs,
          Obj.none)] [] demoKwargs).ret = Obj.none :=
  ⟨rfl, by decide, by decide, rfl,
    ((cache_falsy_coerced_to_fresh_empty_list
        [(cache_query_key (PVal.vstr "SELECT * FROM users WHERE id = ?") [] demoKwargs,
          Obj.none)] [] demoKwargs
        (PVal.vstr "SELECT * FROM users WHERE id = ?") Obj.none demoRowsObj
        rfl (by decide)).1 (by decide) rfl).1,
    ((cache_falsy_coerced_to_fresh_empty_list
        [(cache_query_key (PVal.vstr "SELECT * FROM users WHERE id = ?") [] demoKwargs,
          Obj.none)] [] demoKwargs
        (PVal.vstr "SELECT * FROM users WHERE id = ?") Obj.none demoRowsObj
        rfl (by decide)).1 (by decide) rfl).2 (by decide)⟩

end AlxMw
